import Mathlib

/-!
Verification development for `arcconf.py` from
borgbase/node-exporter-textfile-collector-scripts: a RAID-health
check engine that scans vendor-tool output line by line against a
declarative catalog of checks and emits Prometheus-style metrics.

The engine is embedded shallowly: the catalog `BINARIES` is transcribed
verbatim, and the line scanner, separator tracker, attribute matcher and
metric assembler of `collect_metrics` (lines 147-205 of the source) are
translated into executable Lean functions.  Python's regular-expression
matching at line 193 (`re.match(f"^\s*{attribute_name}\s*:\s*(\w+.*)$", line)`)
and at line 186 (`re.match('\s+Device #(\d+)', line)`) is modelled by a
complete backtracking matcher specialised to those two pattern shapes,
with `\s`, `\w` and `\d` modelled over ASCII (vendor output is ASCII).
Lines handed to the matcher come from `str.splitlines`, so they contain
no newline; the `.*$` tail of the attribute pattern is therefore modelled
as capturing the whole remainder of the line.
Python exceptions (`ValueError` from tuple unpacking, `CalledProcessError`
from `subprocess.run(check=True)`, `IOError` from `open`) and `sys.exit(1)`
all abort the process before anything is printed; they are modelled with
`Except`.
-/

set_option autoImplicit false

namespace Raid

/-- ASCII model of Python regex `\s` for `str` patterns: `[ \t\n\v\f\r]`. -/
def pySpace (c : Char) : Bool :=
  c == ' ' || c == '\t' || c == '\n' || c == '\x0b' || c == '\x0c' || c == '\r'

/-- ASCII model of Python regex `\w`: `[A-Za-z0-9_]`. -/
def pyWord (c : Char) : Bool :=
  c.isAlphanum || c == '_'

/-- One element of the attribute-label regex fragment that the catalog
interpolates into the pattern at line 193: a literal character or the `.`
metacharacter (which in Python matches any character except a newline). -/
inductive RElem where
  | lit (c : Char)
  | anyChar
deriving Repr, DecidableEq

/-- Whether a single pattern element matches a single character. -/
def RElem.test : RElem → Char → Bool
  | .lit a, c => a == c
  | .anyChar, c => c != '\n'

/-- Translate a catalog label string into pattern elements exactly as
Python's `re` reads the interpolated f-string fragment: `\x` makes `x`
literal (the catalog only uses `\.`), a bare `.` matches any character,
every other character is literal.  (The catalog labels contain no other
regex metacharacters.) -/
def parseLabel : List Char → List RElem
  | [] => []
  | '\\' :: c :: rest => .lit c :: parseLabel rest
  | '.' :: rest => .anyChar :: parseLabel rest
  | c :: rest => .lit c :: parseLabel rest

/-- Match a quantifier-free element sequence against the head of the
input; each element consumes exactly one character, so this is
deterministic.  Returns the remaining suffix on success. -/
def dropElems : List RElem → List Char → Option (List Char)
  | [], s => some s
  | _ :: _, [] => none
  | e :: es, c :: s => if e.test c then dropElems es s else none

/-- The suffixes of `s` reachable by skipping `k` leading whitespace
characters, for `k` from maximal down to `0`: exactly the alternatives of
a greedy `\s*`, in the order Python's backtracking tries them. -/
def wsSkips : List Char → List (List Char)
  | [] => [[]]
  | c :: s => if pySpace c then wsSkips s ++ [c :: s] else [c :: s]

/-- The `\s*(\w+.*)$` tail of the attribute pattern, applied after the
colon: the greedy `\s*` run is forced (a shorter run would leave a
whitespace character where `\w` is required), and the group `(\w+.*)`
captures from the first word character through the end of the line. -/
def afterColon (r2 : List Char) : Option (List Char) :=
  match r2.dropWhile (fun c => pySpace c) with
  | c :: v => if pyWord c then some (c :: v) else none
  | [] => none

/-- The `\s*:` part of the attribute pattern, applied after the label:
again the greedy `\s*` run is forced (a shorter run would leave a
whitespace character where `:` is required). -/
def afterLabel (r : List Char) : Option (List Char) :=
  match r.dropWhile (fun c => pySpace c) with
  | x :: r2 => if x = ':' then afterColon r2 else none
  | [] => none

/-- Continue the attribute pattern after `^\s*` has skipped to `s`:
match the label elements, then `\s*:\s*(\w+.*)$`. -/
def tryLabelAt (elems : List RElem) (s : List Char) : Option (List Char) :=
  match dropElems elems s with
  | none => none
  | some r => afterLabel r

/-- Group 1 of `re.match(f"^\s*{elems}\s*:\s*(\w+.*)$", line)`:
try each `\s*` skip amount, longest first, and return the first capture. -/
def attrCaptureL (elems : List RElem) (line : List Char) : Option (List Char) :=
  (wsSkips line).findSome? (tryLabelAt elems)

/-- Group 1 of `re.match(f"^\s*{attribute_name}\s*:\s*(\w+.*)$", line)`,
the attribute matcher of source line 193, with the catalog's
`attribute_name` string interpolated raw into the pattern. -/
def attrCapture (attribute_name line : String) : Option String :=
  (attrCaptureL (parseLabel attribute_name.toList) line.toList).map fun l => String.mk l

/-- Continue the separator pattern after `\s+` has consumed to `s`:
literal `Device #`, then `(\d+)` captures the maximal digit run. -/
def tryDeviceAt (s : List Char) : Option (List Char) :=
  match dropElems (("Device #".toList).map RElem.lit) s with
  | none => none
  | some r =>
    match r.takeWhile Char.isDigit with
    | [] => none
    | d :: ds => some (d :: ds)

/-- Group 1 of `re.match('\s+Device #(\d+)', line)`, the separator
pattern of the arcconf physical-device check (source lines 94-97, applied
at line 186): at least one leading whitespace character, then
`Device #`, then one or more digits (captured); the rest of the line is
unconstrained. -/
def sepCapture (line : String) : Option String :=
  match line.toList with
  | [] => none
  | c :: s =>
    if pySpace c then ((wsSkips s).findSome? tryDeviceAt).map (fun l => String.mk l)
    else none

/-- A check's `separator` entry: the compiled capture function of its
regex, and the metric label name. -/
structure SeparatorRule where
  capture : String → Option String
  label : String

/-- One entry of a profile's `checks` list.  `values` keeps the raw
shape of the source (`List (List String)`): arcconf entries are triples
`[attribute_name, metric_name, expected_value]`, megacli entries are
stale pairs `[attribute_name, expected_value]`. -/
structure Check where
  name : String
  args : List String
  test : String
  separator : Option SeparatorRule := none
  values : List (List String)

/-- One vendor profile of `BINARIES`. -/
structure Profile where
  path : String
  checks : List Check

/-- The separator rule of the arcconf `Physical device state` check:
`{'regex': '\s+Device #(\d+)', 'label': 'device'}`. -/
def deviceSeparator : SeparatorRule :=
  ⟨sepCapture, "device"⟩

/-- The megacli `Enclosure state` check (source lines 20-27); its
`values` entry is the pair `['Status', 'Normal']`. -/
def encCheck : Check where
  name := "Enclosure state"
  args := ["-EncInfo", "-aALL"]
  test := "megacli/enc.txt"
  values := [["Status", "Normal"]]

/-- The `megacli` profile of `BINARIES` (source lines 17-66),
transcribed verbatim; note every `values` entry is a pair. -/
def megacliProfile : Profile where
  path := "/usr/local/sbin/megacli"
  checks := [
    encCheck,
    { name := "Virtual drive state",
      args := ["-LDInfo", "-Lall", "-aALL", "-NoLog"],
      test := "megacli/ld.txt",
      values := [["State", "Optimal"],
                 ["Bad Blocks Exist", "No"]] },
    { name := "Physical drive state",
      args := ["-PDList", "-aALL"],
      test := "megacli/pd.txt",
      values := [["Media Error Count", "0"],
                 ["Predictive Failure Count", "0"],
                 ["Firmware state", "Online, Spun Up"],
                 ["Drive has flagged a S\\.M\\.A\\.R\\.T alert", "No"]] },
    { name := "Patrol read state",
      args := ["-AdpPR", "-Info", "-aALL", "-NoLog"],
      test := "megacli/pr.txt",
      values := [["Patrol Read Mode", "Auto"]] },
    { name := "Battery state",
      args := ["-AdpBbuCmd", "-aALL", "-NoLog"],
      test := "megacli/battery.txt",
      values := [["Battery State", "Optimal"]] }
  ]

/-- The arcconf `Controller status` check (source lines 70-80). -/
def adCheck : Check where
  name := "Controller status"
  args := ["GETCONFIG", "1", "AD"]
  test := "arcconf/ad.txt"
  values := [["Controller Status", "controller_has_error", "Optimal"],
             ["Logical devices/Failed/Degraded", "logical_device_degraded", "1/0/0"],
             ["Defunct disk drive count", "has_defunct_drives", "0"]]

/-- The arcconf `Logical device state` check (source lines 81-89). -/
def ldCheck : Check where
  name := "Logical device state"
  args := ["GETCONFIG", "1", "LD"]
  test := "arcconf/ld.txt"
  values := [["Status of Logical Device", "logical_device_has_error", "Optimal"],
             ["Parity Initialization Status", "parity_initialization_incomplete", "Completed"]]

/-- The arcconf `Physical device state` check (source lines 90-119),
the one check in the catalog with a separator. -/
def pdCheck : Check where
  name := "Physical device state"
  args := ["GETCONFIG", "1", "PD"]
  test := "arcconf/pd.txt"
  separator := some deviceSeparator
  values := [["State", "drive_offline", "Online"],
             ["S.M.A.R.T. warnings", "drive_has_smart_warnings", "0"],
             ["Aborted Commands", "drive_has_aborted_commands", "0"],
             ["Bad Target Errors", "drive_has_bad_target_errors", "0"],
             ["Format Errors", "drive_has_format_errors", "0"],
             ["Hardware Errors", "drive_has_hardware_errors", "0"],
             ["Hard Read Errors", "drive_has_hw_read_errors", "0"],
             ["Hard Write Errors", "drive_has_hw_read_errors", "0"],
             ["Media Failures", "drive_has_media_failures", "0"],
             ["Not Ready Errors", "drive_has_not_ready_errors", "0"],
             ["Predictive Failures", "drive_has_predictive_failures", "0"],
             ["Scsi Bus Faults", "drive_has_scsi_bus_faults", "0"]]

/-- The `arcconf` profile of `BINARIES` (source lines 67-121),
transcribed verbatim; every `values` entry is a triple
`[arcconf name, prom metric name, expected value]`. -/
def arcconfProfile : Profile where
  path := "/usr/local/sbin/arcconf"
  checks := [adCheck, ldCheck, pdCheck]

/-- The `BINARIES` catalog (source lines 16-122). -/
def BINARIES : List (String × Profile) :=
  [("megacli", megacliProfile), ("arcconf", arcconfProfile)]

/-- The ways the Python process aborts inside `collect_metrics`. -/
inductive PyErr where
  /-- `ValueError` raised at line 192 when a `values` entry does not
  unpack into `attribute_name, metric_name, expected_value`. -/
  | valueError
  /-- `CalledProcessError` raised by `subprocess.run(..., check=True)`
  at line 174 when the vendor binary exits non-zero. -/
  | calledProcessError
  /-- `sys.exit(1)` at line 180 (empty output or non-zero returncode). -/
  | sysExitOne
  /-- `IOError` raised by `open(...).read()` at line 172 in debug mode. -/
  | ioError
deriving Repr, DecidableEq

/-- One entry of the `metrics` list (appended at lines 195-201, unpacked
in `print_all_metrics` as `metric, label_name, label_value, status,
metric_value`). -/
structure MetricRecord where
  metric : String
  label_name : Option String
  label_value : Option String
  status : Nat
  metric_value : String
deriving Repr, DecidableEq

/-- Python's unpacking `attribute_name, metric_name, expected_value = v`:
succeeds exactly on three-element lists. -/
def unpack3 : List String → Option (String × String × String)
  | [a, b, c] => some (a, b, c)
  | _ => none

/-- The inner loop over `check['values']` (source lines 192-201): each
entry is unpacked into a triple (raising `ValueError` otherwise), the
line is matched against the rule's attribute pattern, and on a match a
record is appended carrying the current separator state and
`status = int(res.group(1) != expected_value)`. -/
def scanValues (values : List (List String)) (separator_label separator_value : Option String)
    (line : String) : Except PyErr (List MetricRecord) :=
  match values with
  | [] => .ok []
  | v :: rest =>
    match unpack3 v with
    | none => .error .valueError
    | some (attribute_name, metric_name, expected_value) =>
      match scanValues rest separator_label separator_value line with
      | .error e => .error e
      | .ok tail =>
        match attrCapture attribute_name line with
        | some obs =>
          .ok (⟨metric_name, separator_label, separator_value,
                if obs = expected_value then 0 else 1, obs⟩ :: tail)
        | none => .ok tail

/-- The separator state of one check's scan: the two loop variables
`separator_value` and `separator_label`, both `None` at check start
(source lines 168-169). -/
structure SepSt where
  separator_value : Option String
  separator_label : Option String
deriving Repr, DecidableEq

/-- "try to update separator" (source lines 183-189): if the check has a
separator and the line matches its regex, both state variables are
overwritten; otherwise the state is kept. -/
def stepSep (separator : Option SeparatorRule) (st : SepSt) (line : String) : SepSt :=
  match separator with
  | none => st
  | some sd =>
    match sd.capture line with
    | some v => ⟨some v, some sd.label⟩
    | none => st

/-- The loop over `cmd_res.splitlines()` (source lines 182-201):
separator update first, then the attribute rules, on every line. -/
def scanLines (check : Check) : SepSt → List String → Except PyErr (List MetricRecord)
  | _, [] => .ok []
  | st, line :: rest =>
    let st' := stepSep check.separator st line
    match scanValues check.values st'.separator_label st'.separator_value line with
    | .error e => .error e
    | .ok ms =>
      match scanLines check st' rest with
      | .error e => .error e
      | .ok tail => .ok (ms ++ tail)

/-- Helper for `splitlines`: accumulate the current line (reversed). -/
def splitlinesAux : List Char → List Char → List (List Char)
  | [], [] => []
  | [], acc => [acc.reverse]
  | '\n' :: rest, acc => acc.reverse :: splitlinesAux rest []
  | c :: rest, acc => splitlinesAux rest (c :: acc)

/-- Python `str.splitlines` on newline-normalised text (both
`open().read()` and `subprocess.run(universal_newlines=True)` translate
`\r\n` and `\r` to `\n` before the engine sees the text): split on `\n`
with no trailing empty line (`"" → []`, `"a\n" → ["a"]`). -/
def splitlines (s : String) : List String :=
  (splitlinesAux s.toList []).map fun l => String.mk l

/-- Processing of one check's fetched output: separator state starts as
`(None, None)` (source lines 168-169), then the lines are scanned. -/
def runCheck (check : Check) (text : String) : Except PyErr (List MetricRecord) :=
  scanLines check ⟨none, none⟩ (splitlines text)

/-- The external world of one check: the fixture read in debug mode
(`.error` models an unreadable fixture) and the stdout/returncode of the
live subprocess invocation. -/
structure CheckWorld where
  fixture : Except Unit String
  stdout : String
  returncode : Int

/-- Acquisition of one check's output (source lines 171-180).  In debug
mode the fixture is read with no emptiness test; in live mode
`subprocess.run(check=True)` raises on non-zero exit, and afterwards
`if len(cmd_res) == 0 or proc_res.returncode != 0: sys.exit(1)`. -/
def fetch_output (debug : Bool) (w : CheckWorld) : Except PyErr String :=
  if debug then
    match w.fixture with
    | .ok s => .ok s
    | .error _ => .error .ioError
  else if w.returncode ≠ 0 then .error .calledProcessError
  else if w.stdout.length = 0 ∨ w.returncode ≠ 0 then .error .sysExitOne
  else .ok w.stdout

/-- `collect_metrics` (source lines 147-205), over the checks paired with
their external worlds: fetch each check's output, scan it, and
concatenate the records; any error aborts the whole run. -/
def collect_metrics (debug : Bool) : List (Check × CheckWorld) → Except PyErr (List MetricRecord)
  | [] => .ok []
  | (check, w) :: rest =>
    match fetch_output debug w with
    | .error e => .error e
    | .ok text =>
      match runCheck check text with
      | .error e => .error e
      | .ok ms =>
        match collect_metrics debug rest with
        | .error e => .error e
        | .ok tail => .ok (ms ++ tail)

/-- `print_all_metrics` (source lines 208-213): the Prometheus exposition
lines.  A `None` label value would be interpolated by the f-string as the
text `None`; in the code `label_name` and `label_value` are always set
together, so the default is never visible. -/
def print_all_metrics (vendor : String) (ms : List MetricRecord) : List String :=
  ms.map fun m =>
    match m.label_name with
    | some ln =>
      vendor ++ "_" ++ m.metric ++ "\x7b" ++ ln ++ "=\"" ++ m.label_value.getD "None"
        ++ "\",state=\"" ++ m.metric_value ++ "\"\x7d " ++ toString m.status
    | none =>
      vendor ++ "_" ++ m.metric ++ "\x7bstate=\"" ++ m.metric_value ++ "\"\x7d "
        ++ toString m.status

/-- `main` (source lines 215-217): the metric lines actually printed.
`collect_metrics` runs to completion before anything is printed, so an
aborting run prints no metric line. -/
def main_output (vendor : String) (debug : Bool) (world : List (Check × CheckWorld)) : List String :=
  match collect_metrics debug world with
  | .ok ms => print_all_metrics vendor ms
  | .error _ => []

/-! ### Reference definitions written from the spec's words
(used to state refinement claims; the engine definitions above are the
authority translated from the source). -/

/-- A whitespace-only character run. -/
def WsRun (w : List Char) : Prop := ∀ c ∈ w, pySpace c = true

/-- The attribute-line shape exactly as claim C5 words it: optional
leading whitespace, the label, optional whitespace, a colon, optional
whitespace, then one or more NON-WHITESPACE characters followed by the
remainder of the line. -/
def claimC5Shape (label line : List Char) : Prop :=
  ∃ w1 w2 w3 c v, line = w1 ++ label ++ w2 ++ ':' :: (w3 ++ c :: v) ∧
    WsRun w1 ∧ WsRun w2 ∧ WsRun w3 ∧ pySpace c = false

/-- The amended attribute-line shape: the observed value must begin with
a word character (Python `\w`, i.e. `[A-Za-z0-9_]`), not merely any
non-whitespace character. -/
def wordValueShape (label line : List Char) : Prop :=
  ∃ w1 w2 w3 c v, line = w1 ++ label ++ w2 ++ ':' :: (w3 ++ c :: v) ∧
    WsRun w1 ∧ WsRun w2 ∧ WsRun w3 ∧ pyWord c = true

/-- The group value the spec assigns to a position in a check's output:
the first capturing group of the nearest preceding line (the current one
included) that matches the separator pattern, absent if no line matched
yet. -/
def lastSepCapture (sd : SeparatorRule) (lines : List String) : Option String :=
  (lines.filterMap sd.capture).getLast?

/-- Whether some line seen so far matches the separator pattern. -/
def anySep (sd : SeparatorRule) (lines : List String) : Bool :=
  lines.any fun l => (sd.capture l).isSome

/-- Reference scan written from the spec's words: the records for each
line are assembled with the group state recomputed afresh from the
prefix of lines up to and including the current line (`done` is the list
of lines already consumed; the group value is absent until a separator
line has been seen). -/
def specScan (check : Check) (sd : SeparatorRule) (done : List String) :
    List String → Except PyErr (List MetricRecord)
  | [] => .ok []
  | line :: rest =>
    let seen := done ++ [line]
    let gl : Option String := if anySep sd seen then some sd.label else none
    match scanValues check.values gl (lastSepCapture sd seen) line with
    | .error e => .error e
    | .ok ms =>
      match specScan check sd seen rest with
      | .error e => .error e
      | .ok tail => .ok (ms ++ tail)

/-- Whether a raw rule entry fires on a line: it unpacks into a triple
and its attribute pattern matches the line. -/
def ruleFires (v : List String) (line : String) : Bool :=
  match unpack3 v with
  | some (a, _, _) => (attrCapture a line).isSome
  | none => false

/-- The live-mode fetch with the dead `returncode != 0` disjunct of the
`sys.exit(1)` test dropped (claim C10's reading of lines 174-180). -/
def fetch_live_simplified (w : CheckWorld) : Except PyErr String :=
  if w.returncode ≠ 0 then .error .calledProcessError
  else if w.stdout.length = 0 then .error .sysExitOne
  else .ok w.stdout

/-! ### Lemmas about the attribute matcher -/

theorem wsRun_nil : WsRun [] := by
  intro c hc
  cases hc

theorem wsRun_cons {c : Char} {w : List Char} (hc : pySpace c = true) (hw : WsRun w) :
    WsRun (c :: w) := by
  intro d hd
  rcases List.mem_cons.mp hd with hd | hd
  · exact hd ▸ hc
  · exact hw d hd

theorem pySpace_eq_false_of_pyWord {c : Char} (h : pyWord c = true) : pySpace c = false := by
  by_contra hs
  rw [Bool.not_eq_false, pySpace] at hs
  simp only [Bool.or_eq_true, beq_iff_eq] at hs
  rcases hs with ((((h1 | h1) | h1) | h1) | h1) | h1 <;> subst h1 <;> simp [pyWord] at h

theorem mem_wsSkips_sound {s s' : List Char} (h : s' ∈ wsSkips s) :
    ∃ w, s = w ++ s' ∧ WsRun w := by
  induction s with
  | nil =>
    rw [wsSkips, List.mem_singleton] at h
    exact ⟨[], by rw [h]; rfl, wsRun_nil⟩
  | cons c t ih =>
    rw [wsSkips] at h
    by_cases hc : pySpace c
    · rw [if_pos hc, List.mem_append, List.mem_singleton] at h
      rcases h with h | h
      · obtain ⟨w, hw, hws⟩ := ih h
        exact ⟨c :: w, by rw [List.cons_append, ← hw], wsRun_cons hc hws⟩
      · exact ⟨[], by rw [h]; rfl, wsRun_nil⟩
    · rw [if_neg hc, List.mem_singleton] at h
      exact ⟨[], by rw [h]; rfl, wsRun_nil⟩

theorem mem_wsSkips_self (s : List Char) : s ∈ wsSkips s := by
  induction s with
  | nil => rw [wsSkips]; exact List.mem_singleton.mpr rfl
  | cons c t _ =>
    rw [wsSkips]
    by_cases hc : pySpace c
    · rw [if_pos hc]; exact List.mem_append_right _ (List.mem_singleton.mpr rfl)
    · rw [if_neg hc]; exact List.mem_singleton.mpr rfl

theorem mem_wsSkips_of_ws {w s' : List Char} (hw : WsRun w) : s' ∈ wsSkips (w ++ s') := by
  induction w with
  | nil => simpa using mem_wsSkips_self s'
  | cons c t ih =>
    have hc : pySpace c = true := hw c (List.mem_cons_self c t)
    have ht : WsRun t := fun d hd => hw d (List.mem_cons_of_mem c hd)
    rw [List.cons_append, wsSkips, if_pos hc]
    exact List.mem_append_left _ (ih ht)

theorem RElem_test_lit {c d : Char} : (RElem.lit c).test d = true ↔ c = d := by
  rw [RElem.test]
  exact beq_iff_eq

theorem dropElems_nil_elems (s : List Char) : dropElems [] s = some s := by
  rw [dropElems]

theorem dropElems_cons_nil (e : RElem) (es : List RElem) : dropElems (e :: es) [] = none := by
  rw [dropElems]

theorem dropElems_cons_cons (e : RElem) (es : List RElem) (c : Char) (s : List Char) :
    dropElems (e :: es) (c :: s) = if e.test c then dropElems es s else none := by
  rw [dropElems]

theorem dropElems_lit {L : List Char} : ∀ {s r : List Char},
    dropElems (L.map RElem.lit) s = some r ↔ s = L ++ r := by
  induction L with
  | nil =>
    intro s r
    rw [List.map_nil, dropElems_nil_elems, List.nil_append, Option.some.injEq]
  | cons c L ih =>
    intro s r
    cases s with
    | nil =>
      rw [List.map_cons, dropElems_cons_nil, List.cons_append]
      constructor
      · intro h; exact absurd h (by simp)
      · intro h; exact absurd h (by simp)
    | cons d s =>
      rw [List.map_cons, dropElems_cons_cons, List.cons_append]
      by_cases hcd : c = d
      · subst hcd
        rw [if_pos (RElem_test_lit.mpr rfl), ih]
        simp
      · rw [if_neg (fun h => hcd (RElem_test_lit.mp h))]
        constructor
        · intro h; exact absurd h (by simp)
        · intro h
          injection h with h1 _
          exact absurd h1.symm hcd

theorem dropWhile_eq_cons_decomp {p : Char → Bool} : ∀ {l : List Char} {x : Char}
    {xs : List Char}, l.dropWhile p = x :: xs →
    ∃ w, l = w ++ x :: xs ∧ (∀ c ∈ w, p c = true) ∧ p x = false := by
  intro l
  induction l with
  | nil => intro x xs h; simp at h
  | cons c t ih =>
    intro x xs h
    rw [List.dropWhile_cons] at h
    by_cases hc : p c
    · rw [if_pos hc] at h
      obtain ⟨w, hw, hws, hx⟩ := ih h
      refine ⟨c :: w, by rw [List.cons_append, ← hw], ?_, hx⟩
      intro d hd
      rcases List.mem_cons.mp hd with hd | hd
      · exact hd ▸ hc
      · exact hws d hd
    · rw [if_neg hc] at h
      injection h with h1 h2
      subst h1; subst h2
      refine ⟨[], rfl, ?_, by simpa using hc⟩
      intro d hd
      exact absurd hd (List.not_mem_nil d)

theorem dropWhile_ws_append {p : Char → Bool} : ∀ {w rest : List Char},
    (∀ c ∈ w, p c = true) → (w ++ rest).dropWhile p = rest.dropWhile p := by
  intro w
  induction w with
  | nil => intro rest _; rw [List.nil_append]
  | cons c t ih =>
    intro rest hw
    have hc : p c = true := hw c (List.mem_cons_self c t)
    rw [List.cons_append, List.dropWhile_cons, if_pos hc]
    exact ih fun d hd => hw d (List.mem_cons_of_mem c hd)

theorem findSome?_eq_some_exists {α β : Type} {f : α → Option β} : ∀ {l : List α} {b : β},
    l.findSome? f = some b → ∃ x ∈ l, f x = some b := by
  intro l
  induction l with
  | nil => intro b h; simp at h
  | cons a t ih =>
    intro b h
    rw [List.findSome?_cons] at h
    cases hfa : f a with
    | some c =>
      rw [hfa] at h
      exact ⟨a, List.mem_cons_self a t, hfa.trans h⟩
    | none =>
      rw [hfa] at h
      obtain ⟨x, hx, hfx⟩ := ih h
      exact ⟨x, List.mem_cons_of_mem a hx, hfx⟩

theorem findSome?_isSome_of_mem {α β : Type} {f : α → Option β} : ∀ {l : List α} {x : α},
    x ∈ l → (f x).isSome = true → (l.findSome? f).isSome = true := by
  intro l
  induction l with
  | nil => intro x hx; exact absurd hx (List.not_mem_nil x)
  | cons a t ih =>
    intro x hx hfx
    rw [List.findSome?_cons]
    cases hfa : f a with
    | some c => simp
    | none =>
      rcases List.mem_cons.mp hx with hx | hx
      · subst hx; rw [hfa] at hfx; simp at hfx
      · exact ih hx hfx

theorem afterColon_dw_nil {r2 : List Char} (hdw : r2.dropWhile (fun c => pySpace c) = []) :
    afterColon r2 = none := by
  rw [afterColon, hdw]

theorem afterColon_dw_cons {r2 : List Char} {c : Char} {v' : List Char}
    (hdw : r2.dropWhile (fun c => pySpace c) = c :: v') :
    afterColon r2 = if pyWord c then some (c :: v') else none := by
  rw [afterColon, hdw]

theorem afterLabel_dw_nil {r : List Char} (hdw : r.dropWhile (fun c => pySpace c) = []) :
    afterLabel r = none := by
  rw [afterLabel, hdw]

theorem afterLabel_dw_cons {r : List Char} {x : Char} {r2 : List Char}
    (hdw : r.dropWhile (fun c => pySpace c) = x :: r2) :
    afterLabel r = if x = ':' then afterColon r2 else none := by
  rw [afterLabel, hdw]

theorem tryLabelAt_de_none {elems : List RElem} {s : List Char}
    (hde : dropElems elems s = none) : tryLabelAt elems s = none := by
  rw [tryLabelAt, hde]

theorem tryLabelAt_de_some {elems : List RElem} {s r : List Char}
    (hde : dropElems elems s = some r) : tryLabelAt elems s = afterLabel r := by
  rw [tryLabelAt, hde]

theorem afterColon_eq_some {r2 v : List Char} :
    afterColon r2 = some v ↔
      ∃ w3 c v', r2 = w3 ++ c :: v' ∧ WsRun w3 ∧ pyWord c = true ∧ v = c :: v' := by
  constructor
  · intro h
    cases hdw : r2.dropWhile (fun c => pySpace c) with
    | nil => rw [afterColon_dw_nil hdw] at h; exact absurd h (by simp)
    | cons c v' =>
      rw [afterColon_dw_cons hdw] at h
      obtain ⟨w3, hr2, hw3, _⟩ := dropWhile_eq_cons_decomp hdw
      by_cases hc : pyWord c
      · rw [if_pos hc] at h
        exact ⟨w3, c, v', hr2, hw3, hc, ((Option.some.injEq _ _).mp h).symm⟩
      · rw [if_neg hc] at h; exact absurd h (by simp)
  · rintro ⟨w3, c, v', hr2, hw3, hc, hv⟩
    have hdw : r2.dropWhile (fun c => pySpace c) = c :: v' := by
      rw [hr2, dropWhile_ws_append hw3, List.dropWhile_cons,
        if_neg (by simp [pySpace_eq_false_of_pyWord hc])]
    rw [afterColon_dw_cons hdw, if_pos hc, hv]

theorem afterLabel_eq_some {r v : List Char} :
    afterLabel r = some v ↔
      ∃ w2 w3 c v', r = w2 ++ ':' :: (w3 ++ c :: v') ∧
        WsRun w2 ∧ WsRun w3 ∧ pyWord c = true ∧ v = c :: v' := by
  constructor
  · intro h
    cases hdw : r.dropWhile (fun c => pySpace c) with
    | nil => rw [afterLabel_dw_nil hdw] at h; exact absurd h (by simp)
    | cons x r2 =>
      rw [afterLabel_dw_cons hdw] at h
      by_cases hx : x = ':'
      · subst hx
        rw [if_pos rfl] at h
        obtain ⟨w2, hr, hw2, _⟩ := dropWhile_eq_cons_decomp hdw
        obtain ⟨w3, c, v', hr2, hw3, hc, hv⟩ := afterColon_eq_some.mp h
        exact ⟨w2, w3, c, v', by rw [hr, hr2], hw2, hw3, hc, hv⟩
      · rw [if_neg hx] at h; exact absurd h (by simp)
  · rintro ⟨w2, w3, c, v', hr, hw2, hw3, hc, hv⟩
    have hdw : r.dropWhile (fun c => pySpace c) = ':' :: (w3 ++ c :: v') := by
      rw [hr, dropWhile_ws_append hw2, List.dropWhile_cons, if_neg (by simp [pySpace])]
    rw [afterLabel_dw_cons hdw, if_pos rfl]
    exact afterColon_eq_some.mpr ⟨w3, c, v', rfl, hw3, hc, hv⟩

/-- Characterisation of `tryLabelAt` for an all-literal label: it
succeeds exactly on `label ++ ws ++ ":" ++ ws ++ word-led remainder`,
capturing the whole remainder. -/
theorem tryLabelAt_lit {L s v : List Char} :
    tryLabelAt (L.map RElem.lit) s = some v ↔
      ∃ w2 w3 c v', s = L ++ w2 ++ ':' :: (w3 ++ c :: v') ∧
        WsRun w2 ∧ WsRun w3 ∧ pyWord c = true ∧ v = c :: v' := by
  constructor
  · intro h
    cases hde : dropElems (L.map RElem.lit) s with
    | none => rw [tryLabelAt_de_none hde] at h; exact absurd h (by simp)
    | some r =>
      rw [tryLabelAt_de_some hde] at h
      obtain ⟨w2, w3, c, v', hr, hw2, hw3, hc, hv⟩ := afterLabel_eq_some.mp h
      refine ⟨w2, w3, c, v', ?_, hw2, hw3, hc, hv⟩
      rw [dropElems_lit.mp hde, hr, List.append_assoc]
  · rintro ⟨w2, w3, c, v', hs, hw2, hw3, hc, hv⟩
    have hde : dropElems (L.map RElem.lit) s = some (w2 ++ ':' :: (w3 ++ c :: v')) := by
      rw [dropElems_lit, hs, List.append_assoc]
    rw [tryLabelAt_de_some hde]
    exact afterLabel_eq_some.mpr ⟨w2, w3, c, v', rfl, hw2, hw3, hc, hv⟩

/-- Soundness of the full attribute matcher for an all-literal label:
a successful capture exposes the line's whitespace/label/colon/value
decomposition, and the captured value is the whole word-led remainder. -/
theorem attrCaptureL_lit_some {L line v : List Char}
    (h : attrCaptureL (L.map RElem.lit) line = some v) :
    ∃ w1 w2 w3 c v', line = w1 ++ L ++ w2 ++ ':' :: (w3 ++ c :: v') ∧
      WsRun w1 ∧ WsRun w2 ∧ WsRun w3 ∧ pyWord c = true ∧ v = c :: v' := by
  obtain ⟨s', hs', hts⟩ := findSome?_eq_some_exists h
  obtain ⟨w1, hline, hw1⟩ := mem_wsSkips_sound hs'
  obtain ⟨w2, w3, c, v', hs, hw2, hw3, hc, hv⟩ := tryLabelAt_lit.mp hts
  refine ⟨w1, w2, w3, c, v', ?_, hw1, hw2, hw3, hc, hv⟩
  rw [hline, hs]
  simp [List.append_assoc]

/-- Completeness of the full attribute matcher for an all-literal label:
the matcher succeeds exactly when the line has the word-led shape. -/
theorem attrCaptureL_lit_isSome {L line : List Char} :
    (attrCaptureL (L.map RElem.lit) line).isSome = true ↔ wordValueShape L line := by
  constructor
  · intro h
    obtain ⟨v, hv⟩ := Option.isSome_iff_exists.mp h
    obtain ⟨w1, w2, w3, c, v', hsh, hw1, hw2, hw3, hc, _⟩ := attrCaptureL_lit_some hv
    exact ⟨w1, w2, w3, c, v', hsh, hw1, hw2, hw3, hc⟩
  · rintro ⟨w1, w2, w3, c, v', hsh, hw1, hw2, hw3, hc⟩
    have hline : line = w1 ++ (L ++ w2 ++ ':' :: (w3 ++ c :: v')) := by
      rw [hsh]; simp [List.append_assoc]
    have hmem : (L ++ w2 ++ ':' :: (w3 ++ c :: v')) ∈ wsSkips line := by
      rw [hline]; exact mem_wsSkips_of_ws hw1
    have hts : tryLabelAt (L.map RElem.lit) (L ++ w2 ++ ':' :: (w3 ++ c :: v'))
        = some (c :: v') :=
      tryLabelAt_lit.mpr ⟨w2, w3, c, v', rfl, hw2, hw3, hc, rfl⟩
    exact findSome?_isSome_of_mem hmem (by rw [hts]; rfl)

/-! ### Lemmas about the metric assembler and line scanner -/

theorem unpack3_eq_some {v : List String} {a m e : String} (h : unpack3 v = some (a, m, e)) :
    v = [a, m, e] := by
  match v with
  | [] => simp [unpack3] at h
  | [x] => simp [unpack3] at h
  | [x, y] => simp [unpack3] at h
  | [x, y, z] =>
    simp only [unpack3, Option.some.injEq, Prod.mk.injEq] at h
    rw [h.1, h.2.1, h.2.2]
  | x :: y :: z :: w :: t => simp [unpack3] at h

/-- Every record produced by the `values` loop comes from a rule triple
of the check whose attribute pattern matched the line, and carries the
current separator state, the raw captured value, and
`status = int(observed != expected)`. -/
theorem scanValues_ok_mem {values : List (List String)} {gl gv : Option String}
    {line : String} {ms : List MetricRecord}
    (h : scanValues values gl gv line = .ok ms) {r : MetricRecord} (hr : r ∈ ms) :
    ∃ a m e obs, [a, m, e] ∈ values ∧ attrCapture a line = some obs ∧
      r = ⟨m, gl, gv, if obs = e then 0 else 1, obs⟩ := by
  induction values generalizing ms with
  | nil =>
    simp only [scanValues, Except.ok.injEq] at h
    subst h
    exact absurd hr (List.not_mem_nil r)
  | cons v rest ih =>
    cases hv : unpack3 v with
    | none =>
      simp only [scanValues, hv] at h
      exact absurd h (by simp)
    | some t =>
      obtain ⟨a, m, e⟩ := t
      simp only [scanValues, hv] at h
      cases hrec : scanValues rest gl gv line with
      | error er =>
        simp only [hrec] at h
        exact absurd h (by simp)
      | ok tail =>
        simp only [hrec] at h
        cases hcap : attrCapture a line with
        | some obs =>
          simp only [hcap, Except.ok.injEq] at h
          subst h
          rcases List.mem_cons.mp hr with hr | hr
          · exact ⟨a, m, e, obs,
              (unpack3_eq_some hv) ▸ List.mem_cons_self v rest, hcap, hr⟩
          · obtain ⟨a', m', e', obs', hmem, hcap', hrr⟩ := ih hrec hr
            exact ⟨a', m', e', obs', List.mem_cons_of_mem v hmem, hcap', hrr⟩
        | none =>
          simp only [hcap, Except.ok.injEq] at h
          subst h
          obtain ⟨a', m', e', obs', hmem, hcap', hrr⟩ := ih hrec hr
          exact ⟨a', m', e', obs', List.mem_cons_of_mem v hmem, hcap', hrr⟩

/-- Each record of the `values` loop carries exactly the current
separator state. -/
theorem scanValues_ok_fields {values : List (List String)} {gl gv : Option String}
    {line : String} {ms : List MetricRecord}
    (h : scanValues values gl gv line = .ok ms) {r : MetricRecord} (hr : r ∈ ms) :
    r.label_name = gl ∧ r.label_value = gv := by
  obtain ⟨a, m, e, obs, _, _, hrr⟩ := scanValues_ok_mem h hr
  rw [hrr]
  exact ⟨rfl, rfl⟩

/-- One record per firing rule: the `values` loop emits exactly as many
records for a line as there are rule entries whose pattern matches it —
no early exit after the first match, and every rule is tested. -/
theorem scanValues_ok_length {values : List (List String)} {gl gv : Option String}
    {line : String} {ms : List MetricRecord}
    (h : scanValues values gl gv line = .ok ms) :
    ms.length = (values.filter (fun v => ruleFires v line)).length := by
  induction values generalizing ms with
  | nil =>
    simp only [scanValues, Except.ok.injEq] at h
    subst h
    rfl
  | cons v rest ih =>
    cases hv : unpack3 v with
    | none =>
      simp only [scanValues, hv] at h
      exact absurd h (by simp)
    | some t =>
      obtain ⟨a, m, e⟩ := t
      simp only [scanValues, hv] at h
      have hfires : ruleFires v line = (attrCapture a line).isSome := by
        simp only [ruleFires, hv]
      cases hrec : scanValues rest gl gv line with
      | error er =>
        simp only [hrec] at h
        exact absurd h (by simp)
      | ok tail =>
        simp only [hrec] at h
        cases hcap : attrCapture a line with
        | some obs =>
          simp only [hcap, Except.ok.injEq] at h
          subst h
          rw [List.filter_cons, hfires, hcap]
          simp [ih hrec]
        | none =>
          simp only [hcap, Except.ok.injEq] at h
          subst h
          rw [List.filter_cons, hfires, hcap]
          simp [ih hrec]

/-- "nearest preceding matching line" extends through one more line as
the code's overwrite-on-match does. -/
theorem lastSepCapture_append (sd : SeparatorRule) (done : List String) (line : String) :
    lastSepCapture sd (done ++ [line]) =
      match sd.capture line with
      | some v => some v
      | none => lastSepCapture sd done := by
  rw [lastSepCapture, List.filterMap_append]
  cases hc : sd.capture line with
  | some v => simp [List.filterMap, hc, lastSepCapture]
  | none => simp [List.filterMap, hc, lastSepCapture]

theorem anySep_append (sd : SeparatorRule) (done : List String) (line : String) :
    anySep sd (done ++ [line]) = (anySep sd done || (sd.capture line).isSome) := by
  rw [anySep, anySep, List.any_append]
  simp

/-- One separator-update step realises the spec-side recomputation from
the prefix of lines seen so far. -/
theorem stepSep_spec (sd : SeparatorRule) (done : List String) (line : String) :
    stepSep (some sd)
      ⟨lastSepCapture sd done, if anySep sd done then some sd.label else none⟩ line
      = ⟨lastSepCapture sd (done ++ [line]),
         if anySep sd (done ++ [line]) then some sd.label else none⟩ := by
  rw [stepSep]
  cases hc : sd.capture line with
  | some v => simp [hc, lastSepCapture_append, anySep_append]
  | none => simp [hc, lastSepCapture_append, anySep_append]

/-- The engine's stateful scan of a separator-bearing check equals the
spec-side scan that recomputes the group state from the prefix of lines
up to and including the current one. -/
theorem scanLines_eq_specScan (check : Check) (sd : SeparatorRule)
    (hsep : check.separator = some sd) :
    ∀ (rest done : List String),
      scanLines check
        ⟨lastSepCapture sd done, if anySep sd done then some sd.label else none⟩ rest
        = specScan check sd done rest := by
  intro rest
  induction rest with
  | nil => intro done; rw [scanLines, specScan]
  | cons line rest ih =>
    intro done
    have hst : stepSep check.separator
        ⟨lastSepCapture sd done, if anySep sd done then some sd.label else none⟩ line
        = ⟨lastSepCapture sd (done ++ [line]),
           if anySep sd (done ++ [line]) then some sd.label else none⟩ := by
      rw [hsep, stepSep_spec]
    simp only [scanLines, specScan, hst, ih (done ++ [line])]

/-- For a check without a separator the scan never touches the group
state: every record carries the state the scan started from. -/
theorem scanLines_flat (check : Check) (hsep : check.separator = none) :
    ∀ (lines : List String) (st : SepSt) (ms : List MetricRecord),
      scanLines check st lines = .ok ms →
      ∀ r ∈ ms, r.label_name = st.separator_label ∧ r.label_value = st.separator_value := by
  intro lines
  induction lines with
  | nil =>
    intro st ms h r hr
    simp only [scanLines, Except.ok.injEq] at h
    subst h
    exact absurd hr (List.not_mem_nil r)
  | cons line rest ih =>
    intro st ms h r hr
    have hstep : stepSep check.separator st line = st := by rw [hsep, stepSep]
    simp only [scanLines, hstep] at h
    cases hsv : scanValues check.values st.separator_label st.separator_value line with
    | error e =>
      simp only [hsv] at h
      exact absurd h (by simp)
    | ok msA =>
      simp only [hsv] at h
      cases hrec : scanLines check st rest with
      | error e =>
        simp only [hrec] at h
        exact absurd h (by simp)
      | ok msB =>
        simp only [hrec, Except.ok.injEq] at h
        subst h
        rcases List.mem_append.mp hr with hr | hr
        · exact scanValues_ok_fields hsv hr
        · exact ih st msB hrec r hr

/-- For a separator-bearing check, the group-label invariant: the label
is either still unset or the separator's own label, and it is unset
exactly when the group value is unset. -/
theorem scanLines_sep_labels (check : Check) (sd : SeparatorRule)
    (hsep : check.separator = some sd) :
    ∀ (lines : List String) (st : SepSt) (ms : List MetricRecord),
      (st.separator_label = none ∨ st.separator_label = some sd.label) →
      (st.separator_label = none ↔ st.separator_value = none) →
      scanLines check st lines = .ok ms →
      ∀ r ∈ ms, (r.label_name = none ∨ r.label_name = some sd.label) ∧
        (r.label_name = none ↔ r.label_value = none) := by
  intro lines
  induction lines with
  | nil =>
    intro st ms _ _ h r hr
    simp only [scanLines, Except.ok.injEq] at h
    subst h
    exact absurd hr (List.not_mem_nil r)
  | cons line rest ih =>
    intro st ms hlab hiff h r hr
    have hlab' : (stepSep check.separator st line).separator_label = none ∨
        (stepSep check.separator st line).separator_label = some sd.label := by
      rw [hsep, stepSep]
      cases hc : sd.capture line with
      | some v => simp
      | none => simpa using hlab
    have hiff' : (stepSep check.separator st line).separator_label = none ↔
        (stepSep check.separator st line).separator_value = none := by
      rw [hsep, stepSep]
      cases hc : sd.capture line with
      | some v => simp
      | none => simpa using hiff
    simp only [scanLines] at h
    cases hsv : scanValues check.values (stepSep check.separator st line).separator_label
        (stepSep check.separator st line).separator_value line with
    | error e =>
      simp only [hsv] at h
      exact absurd h (by simp)
    | ok msA =>
      simp only [hsv] at h
      cases hrec : scanLines check (stepSep check.separator st line) rest with
      | error e =>
        simp only [hrec] at h
        exact absurd h (by simp)
      | ok msB =>
        simp only [hrec, Except.ok.injEq] at h
        subst h
        rcases List.mem_append.mp hr with hr | hr
        · obtain ⟨hl, hv⟩ := scanValues_ok_fields hsv hr
          rw [hl, hv]
          exact ⟨hlab', hiff'⟩
        · exact ih (stepSep check.separator st line) msB hlab' hiff' hrec r hr

/-! ### Lemmas about the whole run -/

/-- If some check's fetch fails, the whole run aborts with that error no
matter what comes after it: later checks never run. -/
theorem collect_metrics_append_error {debug : Bool} :
    ∀ {done : List (Check × CheckWorld)} {ms : List MetricRecord},
      collect_metrics debug done = .ok ms →
      ∀ (check : Check) (w : CheckWorld) {e : PyErr}, fetch_output debug w = .error e →
      ∀ (rest : List (Check × CheckWorld)),
        collect_metrics debug (done ++ (check, w) :: rest) = .error e := by
  intro done
  induction done with
  | nil =>
    intro ms _ check w e hf rest
    rw [List.nil_append]
    simp only [collect_metrics, hf]
  | cons p t ih =>
    intro ms h check w e hf rest
    obtain ⟨c0, w0⟩ := p
    simp only [collect_metrics] at h
    cases hf0 : fetch_output debug w0 with
    | error e0 =>
      simp only [hf0] at h
      exact absurd h (by simp)
    | ok text0 =>
      simp only [hf0] at h
      cases hr0 : runCheck c0 text0 with
      | error e0 =>
        simp only [hr0] at h
        exact absurd h (by simp)
      | ok ms0 =>
        simp only [hr0] at h
        cases hrec : collect_metrics debug t with
        | error e0 =>
          simp only [hrec] at h
          exact absurd h (by simp)
        | ok tail =>
          rw [List.cons_append]
          simp only [collect_metrics, hf0, hr0, ih hrec check w hf rest]

/-- In debug mode the run is a function of the checks and their fixture
texts alone: the live-mode fields of the worlds are never read. -/
theorem collect_metrics_debug_fixtures :
    ∀ (l l' : List (Check × CheckWorld)),
      l.map (fun p => (p.1, p.2.fixture)) = l'.map (fun p => (p.1, p.2.fixture)) →
      collect_metrics true l = collect_metrics true l' := by
  intro l
  induction l with
  | nil =>
    intro l' h
    cases l' with
    | nil => rfl
    | cons q t => simp at h
  | cons p t ih =>
    intro l' h
    cases l' with
    | nil => simp at h
    | cons q t' =>
      obtain ⟨p1, p2⟩ := p
      obtain ⟨q1, q2⟩ := q
      simp only [List.map_cons, List.cons.injEq, Prod.mk.injEq] at h
      obtain ⟨⟨hc, hf⟩, ht⟩ := h
      subst hc
      have hfe : fetch_output true p2 = fetch_output true q2 := by
        simp only [fetch_output, if_true]
        rw [hf]
      simp only [collect_metrics, hfe, ih t' ht]

theorem wsRun_space : WsRun [' '] := by
  intro c hc
  rw [List.mem_singleton.mp hc]
  rfl

/-! ### The claims -/

/-- C1: for every attribute match the emitted MetricRecord has
`status = 0` exactly when the observed value equals the rule's expected
value under exact (byte-for-byte, case-sensitive) string equality and
`status = 1` otherwise, and the record's observed value is the raw
capture with no further trimming. -/
theorem C1_status_exact_comparison {values : List (List String)} {gl gv : Option String}
    {line : String} {ms : List MetricRecord}
    (h : scanValues values gl gv line = .ok ms) {r : MetricRecord} (hr : r ∈ ms) :
    ∃ a m e obs, [a, m, e] ∈ values ∧ attrCapture a line = some obs ∧
      r.metric_value = obs ∧ r.status = (if obs = e then 0 else 1) ∧
      (r.status = 0 ↔ obs = e) := by
  obtain ⟨a, m, e, obs, hmem, hcap, hrr⟩ := scanValues_ok_mem h hr
  subst hrr
  refine ⟨a, m, e, obs, hmem, hcap, rfl, rfl, ?_⟩
  by_cases he : obs = e
  · simp [he]
  · simp [he]

theorem C1_witness :
    scanValues pdCheck.values none none "State              : Online"
      = .ok [⟨"drive_offline", none, none, 0, "Online"⟩] ∧
    (∃ a m e obs, [a, m, e] ∈ pdCheck.values ∧
      attrCapture a "State              : Online" = some obs ∧
      (⟨"drive_offline", none, none, 0, "Online"⟩ : MetricRecord).metric_value = obs ∧
      (⟨"drive_offline", none, none, 0, "Online"⟩ : MetricRecord).status
        = (if obs = e then 0 else 1) ∧
      ((⟨"drive_offline", none, none, 0, "Online"⟩ : MetricRecord).status = 0 ↔ obs = e)) :=
  ⟨rfl, @C1_status_exact_comparison pdCheck.values none none "State              : Online"
    [⟨"drive_offline", none, none, 0, "Online"⟩] rfl
    ⟨"drive_offline", none, none, 0, "Online"⟩ (List.mem_singleton.mpr rfl)⟩

/-- C2 counterexample: the arcconf rule label `S.M.A.R.T. warnings` is
interpolated into the pattern unescaped, so its dots act as the regex
any-character metacharacter: a line with `x` in place of every dot DOES
match the rule and emits its metric — the claim's literal-text matching
("a line with an unrelated character in place of a literal dot does not
match") is false. -/
theorem C2_counterexample :
    attrCapture "S.M.A.R.T. warnings" "SxMxAxRxTx warnings : 0" = some "0" ∧
    scanValues pdCheck.values none none "SxMxAxRxTx warnings : 0"
      = .ok [⟨"drive_has_smart_warnings", none, none, 0, "0"⟩] :=
  ⟨rfl, rfl⟩

/-- C2 amended: the attribute label is spliced raw into the regular
expression, so regex metacharacters keep their regex meaning: the
unescaped dots of the arcconf label `S.M.A.R.T. warnings` match any
character (both the genuine line and an `x`-mutated line match), while
the escaped dots of the megacli label `Drive has flagged a
S\.M\.A\.R\.T alert` match only a literal dot (the mutated line does
not match). -/
theorem C2_amended :
    attrCapture "S.M.A.R.T. warnings" "S.M.A.R.T. warnings : 0" = some "0" ∧
    attrCapture "S.M.A.R.T. warnings" "SxMxAxRxTx warnings : 0" = some "0" ∧
    attrCapture "Drive has flagged a S\\.M\\.A\\.R\\.T alert"
      "Drive has flagged a SxMxAxRxT alert : No" = none ∧
    attrCapture "Drive has flagged a S\\.M\\.A\\.R\\.T alert"
      "Drive has flagged a S.M.A.R.T alert : No" = some "No" :=
  ⟨rfl, rfl, rfl, rfl⟩

/-- C3: for every separator-bearing check, running the check equals the
spec-side scan in which each line's records are assembled with the group
value recomputed as the first capturing group of the nearest preceding
separator-matching line — the current line included, since the separator
update precedes attribute matching on the same line — and absent while
no line has matched; the group state is reset at the start of the check
(`runCheck` starts from `⟨none, none⟩` and `specScan` from the empty
prefix), so no group state carries between checks. -/
theorem C3_group_tracking (check : Check) (sd : SeparatorRule) (text : String)
    (hsep : check.separator = some sd) :
    runCheck check text = specScan check sd [] (splitlines text) := by
  rw [runCheck]
  have h0 : (⟨none, none⟩ : SepSt)
      = ⟨lastSepCapture sd [], if anySep sd [] then some sd.label else none⟩ := by
    simp [lastSepCapture, anySep]
  rw [h0, scanLines_eq_specScan check sd hsep]

theorem C3_witness :
    pdCheck.separator = some deviceSeparator ∧
    runCheck pdCheck "CH0\n   Device #0\n   State : Online\n   Device #1\n   State : Degraded"
      = specScan pdCheck deviceSeparator []
          (splitlines "CH0\n   Device #0\n   State : Online\n   Device #1\n   State : Degraded") :=
  ⟨rfl, C3_group_tracking _ _ _ rfl⟩

/-- C4: the claim is the intent (the catalog and CLI offer megacli as a
profile, and the spec requires both profiles to work) but the code
cannot process the megacli profile at all: every megacli `values` entry
is a two-element pair, while line 192 unpacks three names
(`attribute_name, metric_name, expected_value`), so Python raises
`ValueError` on the first line of any megacli check output and the run
aborts with no metrics.  The arcconf profile, whose entries are triples,
processes fine. -/
theorem C4_megacli_value_error :
    runCheck encCheck "Status : Normal" = .error .valueError ∧
    collect_metrics false [(encCheck, ⟨.error (), "Status : Normal", 0⟩)]
      = .error .valueError ∧
    megacliProfile.checks.all (fun c => c.values.all fun v => v.length == 2) = true ∧
    runCheck adCheck "Defunct disk drive count : 0"
      = .ok [⟨"has_defunct_drives", none, none, 0, "0"⟩] :=
  ⟨rfl, rfl, rfl, rfl⟩

/-- C5 counterexample: the line `Status : (abc)` has exactly the shape
the claim describes — optional whitespace, label, whitespace, colon,
whitespace, then one or more non-whitespace characters — yet the matcher
rejects it and no record is emitted, because the code's pattern demands
`\w+` (word characters), not merely non-whitespace: a value beginning
with `(` does NOT match. -/
theorem C5_counterexample :
    claimC5Shape ("Status".toList) ("Status : (abc)".toList) ∧
    attrCapture "Status" "Status : (abc)" = none ∧
    scanValues [["Status", "enclosure_status", "Normal"]] none none "Status : (abc)"
      = .ok [] :=
  ⟨⟨[], [' '], [' '], '(', "abc)".toList, rfl, wsRun_nil, wsRun_space, wsRun_space, rfl⟩,
    rfl, rfl⟩

/-- C5 amended: for a literal label, a line matches the rule exactly
when it consists of optional leading whitespace, the label, optional
whitespace, a colon, optional whitespace, then one or more WORD
characters (`[A-Za-z0-9_]`, Python `\w`) followed by the remainder of
the line — the observed value is that whole remainder (a suffix of the
line, beginning with a word character); a value beginning with any other
non-whitespace character such as `(` or `-` does not match. -/
theorem C5_amended (label line : List Char) :
    ((attrCaptureL (label.map RElem.lit) line).isSome = true ↔ wordValueShape label line) ∧
    (∀ v, attrCaptureL (label.map RElem.lit) line = some v →
      (∃ p, line = p ++ v) ∧ ∃ c v', v = c :: v' ∧ pyWord c = true) := by
  refine ⟨attrCaptureL_lit_isSome, ?_⟩
  intro v hv
  obtain ⟨w1, w2, w3, c, v', hsh, _, _, _, hc, hveq⟩ := attrCaptureL_lit_some hv
  refine ⟨⟨w1 ++ label ++ w2 ++ ':' :: w3, ?_⟩, c, v', hveq, hc⟩
  rw [hsh, hveq]
  simp [List.append_assoc]

theorem C5_witness :
    attrCaptureL (("Status".toList).map RElem.lit) ("  Status : Normal".toList)
      = some ("Normal".toList) ∧
    ((∃ p, "  Status : Normal".toList = p ++ "Normal".toList) ∧
      ∃ c v', "Normal".toList = c :: v' ∧ pyWord c = true) :=
  ⟨rfl, (C5_amended ("Status".toList) ("  Status : Normal".toList)).2 ("Normal".toList) rfl⟩

/-- C6 counterexample: in fixture mode an empty fixture neither aborts
the run nor suppresses later checks — the run completes, the next check
still executes, and its metric line is printed; the claim's "empty (in
either fixture or live mode) ... aborts" is false, because the
emptiness test exists only on the live branch (lines 178-180). -/
theorem C6_counterexample :
    collect_metrics true
      [(adCheck, ⟨Except.ok "", "", 0⟩),
       (adCheck, ⟨Except.ok "Defunct disk drive count : 0", "", 0⟩)]
      = .ok [⟨"has_defunct_drives", none, none, 0, "0"⟩] ∧
    main_output "arcconf" true
      [(adCheck, ⟨Except.ok "", "", 0⟩),
       (adCheck, ⟨Except.ok "Defunct disk drive count : 0", "", 0⟩)]
      = ["arcconf_has_defunct_drives\x7bstate=\"0\"\x7d 0"] :=
  ⟨rfl, rfl⟩

/-- C6 amended: in LIVE mode a check whose invocation yields empty
output or a non-zero exit aborts the whole run (CalledProcessError from
`check=True`, or `sys.exit(1)`) before any metric line is printed, and
the result does not depend on the checks after the failing one — they
never run; in FIXTURE mode an empty fixture is scanned as zero lines and
the run simply continues. -/
theorem C6_amended (vendor : String) (check : Check) (w : CheckWorld)
    (done rest : List (Check × CheckWorld)) (ms : List MetricRecord)
    (hbad : w.stdout = "" ∨ w.returncode ≠ 0)
    (hok : collect_metrics false done = .ok ms) :
    (∃ e, collect_metrics false (done ++ (check, w) :: rest) = .error e ∧
      ∀ rest', collect_metrics false (done ++ (check, w) :: rest') = .error e) ∧
    main_output vendor false (done ++ (check, w) :: rest) = [] ∧
    (∀ (s : String) (rc : Int) (rest2 : List (Check × CheckWorld)),
      collect_metrics true ((check, ⟨Except.ok "", s, rc⟩) :: rest2)
        = collect_metrics true rest2) := by
  have hferr : ∃ e, fetch_output false w = .error e := by
    by_cases hrc : w.returncode ≠ 0
    · refine ⟨.calledProcessError, ?_⟩
      rw [fetch_output]
      simp [hrc]
    · rcases hbad with hso | hrc2
      · refine ⟨.sysExitOne, ?_⟩
        rw [fetch_output]
        simp [hrc, hso]
      · exact absurd hrc2 hrc
  obtain ⟨e, he⟩ := hferr
  have hmain : collect_metrics false (done ++ (check, w) :: rest) = .error e :=
    collect_metrics_append_error hok check w he rest
  refine ⟨⟨e, hmain, fun rest' => collect_metrics_append_error hok check w he rest'⟩, ?_, ?_⟩
  · simp only [main_output, hmain]
  · intro s rc rest2
    have hfix : fetch_output true ⟨Except.ok "", s, rc⟩ = .ok "" := by
      rw [fetch_output]
      simp
    have hrc0 : runCheck check "" = .ok [] := rfl
    simp only [collect_metrics, hfix, hrc0]
    cases h2 : collect_metrics true rest2 with
    | error e2 => rfl
    | ok tail => simp

theorem C6_witness :
    ((⟨Except.ok "", "", 0⟩ : CheckWorld).stdout = "" ∨
      (⟨Except.ok "", "", 0⟩ : CheckWorld).returncode ≠ 0) ∧
    collect_metrics false ([] : List (Check × CheckWorld)) = .ok [] ∧
    main_output "arcconf" false ([] ++ (adCheck, ⟨Except.ok "", "", 0⟩) :: []) = [] :=
  ⟨Or.inl rfl, rfl,
    (C6_amended "arcconf" adCheck ⟨Except.ok "", "", 0⟩ [] [] [] (Or.inl rfl) rfl).2.1⟩

/-- C7 counterexample: a separator-bearing check CAN emit a record with
a null groupLabel — the label variable starts as None and is only set on
the first separator match, so an attribute line before any separator
line yields `label_name = none` even though the check has a separator;
the claim's "null exactly when the check has no separator" is false. -/
theorem C7_counterexample :
    pdCheck.separator = some deviceSeparator ∧
    runCheck pdCheck "State              : Online"
      = .ok [⟨"drive_offline", none, none, 0, "Online"⟩] :=
  ⟨rfl, rfl⟩

/-- C7 amended: every record of a separator-less check has a null
groupLabel; for a separator-bearing check each record's groupLabel is
either null (records emitted before the first separator-matching line)
or the separator's label, and it is null exactly when the record's
groupValue is null. -/
theorem C7_amended (check : Check) (text : String) (ms : List MetricRecord) :
    (check.separator = none → runCheck check text = .ok ms →
      ∀ r ∈ ms, r.label_name = none ∧ r.label_value = none) ∧
    (∀ sd, check.separator = some sd → runCheck check text = .ok ms →
      ∀ r ∈ ms, (r.label_name = none ∨ r.label_name = some sd.label) ∧
        (r.label_name = none ↔ r.label_value = none)) := by
  constructor
  · intro hsep h r hr
    exact scanLines_flat check hsep (splitlines text) ⟨none, none⟩ ms h r hr
  · intro sd hsep h r hr
    exact scanLines_sep_labels check sd hsep (splitlines text) ⟨none, none⟩ ms
      (Or.inl rfl) Iff.rfl h r hr

theorem C7_witness :
    pdCheck.separator = some deviceSeparator ∧
    runCheck pdCheck "   Device #2\n   State : Online"
      = .ok [⟨"drive_offline", some "device", some "2", 0, "Online"⟩] ∧
    (∀ r ∈ [(⟨"drive_offline", some "device", some "2", 0, "Online"⟩ : MetricRecord)],
      (r.label_name = none ∨ r.label_name = some deviceSeparator.label) ∧
      (r.label_name = none ↔ r.label_value = none)) :=
  ⟨rfl, rfl,
    (C7_amended pdCheck "   Device #2\n   State : Online"
      [⟨"drive_offline", some "device", some "2", 0, "Online"⟩]).2 deviceSeparator rfl rfl⟩

/-- C8: every rule of the active check is tested against every line
independently, with no early exit after the first match — the values
loop emits exactly one record per firing rule (two rules with the same
label both fire on one line, in rule order) — and there is no
deduplication: the same attribute appearing on two lines yields two
records. -/
theorem C8_all_rules_no_dedup :
    (∀ (values : List (List String)) (gl gv : Option String) (line : String)
      (ms : List MetricRecord), scanValues values gl gv line = .ok ms →
      ms.length = (values.filter (fun v => ruleFires v line)).length) ∧
    scanValues [["State", "m1", "Online"], ["State", "m2", "Off"]] none none "State : Online"
      = .ok [⟨"m1", none, none, 0, "Online"⟩, ⟨"m2", none, none, 1, "Online"⟩] ∧
    runCheck adCheck "Defunct disk drive count : 0\nDefunct disk drive count : 2"
      = .ok [⟨"has_defunct_drives", none, none, 0, "0"⟩,
             ⟨"has_defunct_drives", none, none, 1, "2"⟩] :=
  ⟨fun _ _ _ _ _ h => scanValues_ok_length h, rfl, rfl⟩

theorem C8_witness :
    scanValues [["State", "m1", "Online"], ["State", "m2", "Off"]] none none "State : Online"
      = .ok [⟨"m1", none, none, 0, "Online"⟩, ⟨"m2", none, none, 1, "Online"⟩] ∧
    ([(⟨"m1", none, none, 0, "Online"⟩ : MetricRecord),
      ⟨"m2", none, none, 1, "Online"⟩].length
      = ([["State", "m1", "Online"], ["State", "m2", "Off"]].filter
          (fun v => ruleFires v "State : Online")).length) :=
  ⟨rfl, C8_all_rules_no_dedup.1 _ _ _ _ _ rfl⟩

/-- C9: fixture-mode runs are deterministic in the fixture text: two
runs over worlds presenting identical fixture content for the same
checks produce identical ordered metric sequences and identical printed
lines (the embedding is a pure function of the catalog and the fixture
texts; the live-mode stdout/returncode fields are never consulted in
debug mode). -/
theorem C9_deterministic (vendor : String) (l l' : List (Check × CheckWorld))
    (h : l.map (fun p => (p.1, p.2.fixture)) = l'.map (fun p => (p.1, p.2.fixture))) :
    collect_metrics true l = collect_metrics true l' ∧
    main_output vendor true l = main_output vendor true l' := by
  have hc := collect_metrics_debug_fixtures l l' h
  exact ⟨hc, by rw [main_output, main_output, hc]⟩

theorem C9_witness :
    ([(adCheck, (⟨Except.ok "Defunct disk drive count : 0", "junk", 5⟩ : CheckWorld))].map
        (fun p => (p.1, p.2.fixture))
      = [(adCheck, (⟨Except.ok "Defunct disk drive count : 0", "", 0⟩ : CheckWorld))].map
        (fun p => (p.1, p.2.fixture))) ∧
    collect_metrics true [(adCheck, ⟨Except.ok "Defunct disk drive count : 0", "junk", 5⟩)]
      = collect_metrics true [(adCheck, ⟨Except.ok "Defunct disk drive count : 0", "", 0⟩)] :=
  ⟨rfl,
    (C9_deterministic "arcconf"
      [(adCheck, ⟨Except.ok "Defunct disk drive count : 0", "junk", 5⟩)]
      [(adCheck, ⟨Except.ok "Defunct disk drive count : 0", "", 0⟩)] rfl).1⟩

/-- C10: the explicit returncode test of the `sys.exit(1)` branch
(line 178) is dead in live mode: `subprocess.run(..., check=True)` has
already raised on any non-zero exit before the test runs, so the branch
behaves exactly like a plain emptiness test and can only fire on empty
output with returncode 0. -/
theorem C10_dead_returncode_test (w : CheckWorld) :
    fetch_output false w = fetch_live_simplified w := by
  rw [fetch_output, fetch_live_simplified]
  by_cases hrc : w.returncode ≠ 0
  · simp [hrc]
  · simp [hrc]

end Raid
